import Mathlib

/-!
Verification of the logging subsystem of the `diting` hardware collector
(package `logger`, second design iteration: `InitLogger`, `MultiHandler`,
`DailyFileHandler`, `fileHandlerWrapper`, `TerminalHandler`).

The Go code is shallowly embedded: Go strings become lists of characters,
`time.Time` becomes a civil date plus a seconds-of-day offset, the
filesystem (one log directory) becomes an explicit state value, and the
external `log/slog` encoders are modelled at their boundary as values that
record which file they are bound to and which attributes/groups are bound.
-/

namespace Diting

/-- Go strings, embedded as lists of characters. -/
abbrev Str := List Char

/-- Go `error` values as produced by the logger package: `fmt.Errorf`
messages, `%w`-wrapping, and `errors.Join` (a joined error is represented
by the rendered messages of the joined errors, which is how Go's opaque
`error` interface exposes it). -/
inductive GoErr where
  | mk : Str → GoErr
  | wrap : Str → GoErr → GoErr
  | joinE : List Str → GoErr
deriving DecidableEq, Repr

/-- The message an error renders to (`Error()`). -/
def GoErr.render : GoErr → Str
  | .mk s => s
  | .wrap s e => s ++ ": ".data ++ GoErr.render e
  | .joinE es => (es.intersperse "\n".data).flatten

/-- Go `errors.Join` over a non-empty list of errors. -/
def errorsJoin (es : List GoErr) : GoErr :=
  GoErr.joinE (es.map GoErr.render)

instance {ε α : Type} [DecidableEq ε] [DecidableEq α] :
    DecidableEq (Except ε α) := fun a b =>
  match a, b with
  | .ok x, .ok y => decidable_of_iff (x = y) (by simp)
  | .error x, .error y => decidable_of_iff (x = y) (by simp)
  | .ok _, .error _ => isFalse (by simp)
  | .error _, .ok _ => isFalse (by simp)

/-! ## Civil calendar (boundary model of Go `time`)

A `time.Time` instant is modelled as a civil date `(year, month, day)`
together with the seconds elapsed within that day.  For valid civil dates,
lexicographic order on `(year, month, day, sec)` coincides with the
chronological order Go's `Time.Before` uses, and Go's
`AddDate(0, 0, -n)` coincides with stepping the civil date back `n` days. -/

structure Date where
  year : Nat
  month : Nat
  day : Nat
deriving DecidableEq, Repr

/-- Leap-year rule of the proleptic Gregorian calendar (as Go `time` uses). -/
def isLeap (y : Nat) : Bool :=
  (y % 4 == 0 && y % 100 != 0) || (y % 400 == 0)

/-- Number of days in a month. -/
def daysInMonth (y m : Nat) : Nat :=
  if m = 2 then (if isLeap y then 29 else 28)
  else if m = 4 ∨ m = 6 ∨ m = 9 ∨ m = 11 then 30
  else 31

/-- A valid civil date (with a 4-digit year, the range Go's
`Format("2006-01-02")` renders with exactly four year digits). -/
def Date.valid (d : Date) : Prop :=
  d.year ≤ 9999 ∧ 1 ≤ d.month ∧ d.month ≤ 12 ∧ 1 ≤ d.day ∧ d.day ≤ daysInMonth d.year d.month

instance (d : Date) : Decidable d.valid := by
  unfold Date.valid; infer_instance

/-- The civil date one day earlier. -/
def prevDay (d : Date) : Date :=
  if 2 ≤ d.day then ⟨d.year, d.month, d.day - 1⟩
  else if 2 ≤ d.month then ⟨d.year, d.month - 1, daysInMonth d.year (d.month - 1)⟩
  else ⟨d.year - 1, 12, 31⟩

/-- Stepping a civil date back `n` days; Go's `AddDate(0, 0, -n)` restricted
to the date component. -/
def subDays (d : Date) : Nat → Date
  | 0 => d
  | n + 1 => subDays (prevDay d) n

/-- Lexicographic (= chronological, on valid dates) strict order. -/
def Date.ltb (a b : Date) : Bool :=
  a.year < b.year ∨ (a.year = b.year ∧
    (a.month < b.month ∨ (a.month = b.month ∧ a.day < b.day)))

/-- A Go `time.Time` instant: civil date plus seconds within the day. -/
structure GoTime where
  date : Date
  sec : Nat
deriving DecidableEq, Repr

/-- Go `Time.Before` on the embedded instants. -/
def GoTime.before (a b : GoTime) : Bool :=
  Date.ltb a.date b.date ∨ (a.date = b.date ∧ a.sec < b.sec)

/-! ## Date formatting and parsing (`Format("2006-01-02")`, `Parse`) -/

/-- The decimal digit character for `n < 10`. -/
def digitChar : Nat → Char
  | 0 => '0' | 1 => '1' | 2 => '2' | 3 => '3' | 4 => '4'
  | 5 => '5' | 6 => '6' | 7 => '7' | 8 => '8' | _ => '9'

/-- Numeric value of a decimal digit character (`none` on non-digits). -/
def digitVal (c : Char) : Option Nat :=
  if c = '0' then some 0 else if c = '1' then some 1
  else if c = '2' then some 2 else if c = '3' then some 3
  else if c = '4' then some 4 else if c = '5' then some 5
  else if c = '6' then some 6 else if c = '7' then some 7
  else if c = '8' then some 8 else if c = '9' then some 9 else none

/-- Zero-padded two-digit rendering of `n < 100`. -/
def pad2 (n : Nat) : Str := [digitChar (n / 10 % 10), digitChar (n % 10)]

/-- Zero-padded four-digit rendering of `n < 10000`. -/
def pad4 (n : Nat) : Str :=
  [digitChar (n / 1000 % 10), digitChar (n / 100 % 10),
   digitChar (n / 10 % 10), digitChar (n % 10)]

/-- Go `t.Format("2006-01-02")` on the date component. -/
def formatDate (d : Date) : Str :=
  pad4 d.year ++ '-' :: (pad2 d.month ++ '-' :: pad2 d.day)

/-- Go `time.Parse("2006-01-02", s)`: exactly `YYYY-MM-DD` with zero-padded
fixed-width fields, month and day-of-month validated against the calendar. -/
def parseDate (s : Str) : Option Date :=
  match s with
  | [y1, y2, y3, y4, h1, m1, m2, h2, d1, d2] =>
    if h1 = '-' ∧ h2 = '-' then
      match digitVal y1, digitVal y2, digitVal y3, digitVal y4,
            digitVal m1, digitVal m2, digitVal d1, digitVal d2 with
      | some a, some b, some c, some e, some f, some g, some i, some j =>
        let y := a * 1000 + b * 100 + c * 10 + e
        let m := f * 10 + g
        let d := i * 10 + j
        if 1 ≤ m ∧ m ≤ 12 ∧ 1 ≤ d ∧ d ≤ daysInMonth y m then
          some ⟨y, m, d⟩
        else none
      | _, _, _, _, _, _, _, _ => none
    else none
  | _ => none

theorem digitVal_digitChar (n : Nat) (h : n < 10) : digitVal (digitChar n) = some n := by
  interval_cases n <;> decide

theorem parseDate_formatDate (d : Date) (h : d.valid) :
    parseDate (formatDate d) = some d := by
  obtain ⟨hy, hm1, hm2, hd1, hd2⟩ := h
  have hm : d.month ≤ 99 := le_trans hm2 (by norm_num)
  have hd : d.day ≤ 99 := by
    refine le_trans hd2 ?_
    unfold daysInMonth
    split
    · split <;> norm_num
    · split <;> norm_num
  simp only [formatDate, pad4, pad2, parseDate, List.cons_append, List.nil_append]
  rw [digitVal_digitChar _ (by omega), digitVal_digitChar _ (by omega),
      digitVal_digitChar _ (by omega), digitVal_digitChar _ (by omega),
      digitVal_digitChar _ (by omega), digitVal_digitChar _ (by omega),
      digitVal_digitChar _ (by omega), digitVal_digitChar _ (by omega)]
  have ey : d.year / 1000 % 10 * 1000 + d.year / 100 % 10 * 100 +
      d.year / 10 % 10 * 10 + d.year % 10 = d.year := by omega
  have em : d.month / 10 % 10 * 10 + d.month % 10 = d.month := by omega
  have ed : d.day / 10 % 10 * 10 + d.day % 10 = d.day := by omega
  simp only [ey, em, ed, if_pos (by decide : ('-' : Char) = '-' ∧ ('-' : Char) = '-')]
  simp [hm1, hm2, hd1, hd2]

theorem formatDate_inj (d1 d2 : Date) (h1 : d1.valid) (h2 : d2.valid)
    (hne : d1 ≠ d2) : formatDate d1 ≠ formatDate d2 := by
  intro he
  apply hne
  have := parseDate_formatDate d1 h1
  rw [he, parseDate_formatDate d2 h2] at this
  exact (Option.some_inj.mp this).symm

theorem parseDate_length {s : Str} {d : Date} (h : parseDate s = some d) :
    s.length = 10 := by
  unfold parseDate at h
  split at h
  · simp
  · exact absurd h (by simp)

/-! ## Records and encoders (boundary model of `log/slog`)

A `slog.Record` carries a level, a timestamp, a message and attributes.
A `slog.Handler` produced by `NewTextHandler`/`NewJSONHandler` over an open
file, possibly decorated by `WithAttrs`/`WithGroup`, is modelled as an
`Encoder`: the id of the file handle it writes through, plus its bound
attributes and group names.  Its byte-level output syntax is out of scope;
what it appends to the file is the record together with the bound
attributes and groups. -/

/-- A key/value attribute. -/
structure Attr where
  key : Str
  val : Str
deriving DecidableEq, Repr

/-- A `slog.Record`. -/
structure Rec where
  level : Int
  time : GoTime
  msg : Str
  attrs : List Attr
deriving DecidableEq, Repr

/-- One encoded record as it lands in a file: the record plus the
attributes and groups bound on the encoder that wrote it. -/
structure Written where
  record : Rec
  boundAttrs : List Attr
  boundGroups : List Str
deriving DecidableEq, Repr

/-- A text/JSON `slog` handler bound to an open file handle. -/
structure Encoder where
  fileId : Nat
  fmtJson : Bool
  level : Int
  addSource : Bool
  boundAttrs : List Attr
  boundGroups : List Str
deriving DecidableEq, Repr

/-- `WithAttrs` on an encoder. -/
def Encoder.withAttrsE (e : Encoder) (as : List Attr) : Encoder :=
  { e with boundAttrs := e.boundAttrs ++ as }

/-- `WithGroup` on an encoder. -/
def Encoder.withGroupE (e : Encoder) (g : Str) : Encoder :=
  { e with boundGroups := e.boundGroups ++ [g] }

/-! ## Filesystem (the log directory)

All file operations of the logger act inside the configured log directory,
so the filesystem state is that one directory: a list of entries (regular
files with contents, or subdirectories) plus the table of file handles
handed out by `os.OpenFile`.  Opening in `O_CREATE|O_WRONLY|O_APPEND` mode
never truncates; writing through a handle appends to the file it was opened
on while the handle is open, and fails (as a write on a closed descriptor)
once the handle was closed. -/

/-- One directory entry. -/
structure FSFile where
  name : Str
  isDir : Bool
  content : List Written
deriving DecidableEq, Repr

/-- An issued file handle. -/
structure FHandle where
  id : Nat
  name : Str
  isOpen : Bool
deriving DecidableEq, Repr

/-- The log directory plus the handle table. -/
structure FS where
  files : List FSFile
  handles : List FHandle
  nextH : Nat
deriving DecidableEq, Repr

/-- Look up a directory entry by name. -/
def FS.findFile (fs : FS) (n : Str) : Option FSFile :=
  fs.files.find? (fun f => f.name = n)

/-- Look up a handle by id. -/
def FS.findHandle (fs : FS) (i : Nat) : Option FHandle :=
  fs.handles.find? (fun h => h.id = i)

/-- `os.OpenFile(path, O_CREATE|O_WRONLY|O_APPEND, 0644)`: create the file
if absent (never truncate), hand out a fresh open handle. -/
def FS.openAppend (fs : FS) (n : Str) : Nat × FS :=
  let files := match fs.findFile n with
    | some _ => fs.files
    | none => fs.files ++ [⟨n, false, []⟩]
  (fs.nextH,
   { files := files,
     handles := fs.handles ++ [⟨fs.nextH, n, true⟩],
     nextH := fs.nextH + 1 })

/-- Append one encoded record to the named file. -/
def FS.appendTo (fs : FS) (n : Str) (w : Written) : FS :=
  { fs with files := fs.files.map (fun f =>
      if f.name = n then { f with content := f.content ++ [w] } else f) }

/-- Write through a handle: appends to the handle's file while the handle
is open, fails like a write on a closed descriptor otherwise. -/
def FS.writeH (fs : FS) (i : Nat) (w : Written) : Except GoErr FS :=
  match fs.findHandle i with
  | some h =>
    if h.isOpen then .ok (fs.appendTo h.name w)
    else .error (.mk "file already closed".data)
  | none => .error (.mk "invalid file handle".data)

/-- `File.Close`: mark the handle closed. -/
def FS.closeH (fs : FS) (i : Nat) : FS :=
  { fs with handles := fs.handles.map (fun h =>
      if h.id = i then { h with isOpen := false } else h) }

/-- `os.Remove` inside the log directory. -/
def FS.removeFile (fs : FS) (n : Str) : FS :=
  { fs with files := fs.files.filter (fun f => ¬ f.name = n) }

/-- The encoder's `Handle`: encode the record (with the encoder's bound
attributes and groups) and write it through the encoder's file handle. -/
def Encoder.handleE (e : Encoder) (fs : FS) (r : Rec) : Except GoErr FS :=
  fs.writeH e.fileId ⟨r, e.boundAttrs, e.boundGroups⟩

/-! ## Configuration (`LogConfig`, `LogOutput`, `validate`) -/

/-- `LogOutput` is a bit set: `OutputNone = 0`, `OutputFile = 1`,
`OutputTerminal = 2`, `OutputBoth = 3`. -/
abbrev LogOutput := Nat

/-- No output target. -/
def OutputNone : LogOutput := 0

/-- File output bit. -/
def OutputFile : LogOutput := 1

/-- Terminal output bit. -/
def OutputTerminal : LogOutput := 2

/-- Both bits. -/
def OutputBoth : LogOutput := OutputFile ||| OutputTerminal

/-- The `logger.LogConfig` structure.  `format` is the `LogFormat` string
(`"text"`/`"json"`); `fnPre` embeds the `FilenamePrefix` field. -/
structure LogConfig where
  output : LogOutput
  dir : Str
  fnPre : Str
  retainDays : Int
  format : Str
  level : Int
  addSource : Bool
deriving DecidableEq, Repr

/-- `LogFormatText`. -/
def LogFormatText : Str := "text".data

/-- `LogFormatJSON`. -/
def LogFormatJSON : Str := "json".data

/-- The file-related default filling inside `validate` (the body of its
`if cfg.Output&OutputFile != 0` block). -/
def fillFileDefaults (cfg : LogConfig) : LogConfig :=
  if cfg.output &&& OutputFile ≠ 0 then
    { cfg with
      dir := if cfg.dir = [] then "./logs".data else cfg.dir,
      fnPre := if cfg.fnPre = [] then "app".data else cfg.fnPre,
      retainDays := if cfg.retainDays ≤ 0 then 30 else cfg.retainDays }
  else cfg

/-- The format default filling inside `validate`. -/
def fillFormatDefault (cfg : LogConfig) : LogConfig :=
  if cfg.format = [] then { cfg with format := LogFormatText } else cfg

/-- `LogConfig.validate`: rejects `OutputNone`, fills file-related defaults
when the file bit is set, defaults an empty format to text, and rejects any
format other than text/json.  Go mutates `cfg` through the pointer; the
embedding returns the updated configuration. -/
def LogConfig.validate (cfg : LogConfig) : Except GoErr LogConfig :=
  if cfg.output = OutputNone then
    .error (.mk "output target cannot be OutputNone".data)
  else if (fillFormatDefault (fillFileDefaults cfg)).format ≠ LogFormatText ∧
      (fillFormatDefault (fillFileDefaults cfg)).format ≠ LogFormatJSON then
    .error (.wrap "unsupported log format".data
      (.mk (fillFormatDefault (fillFileDefaults cfg)).format))
  else
    .ok (fillFormatDefault (fillFileDefaults cfg))

/-! ## `DailyFileHandler` -/

/-- The `DailyFileHandler` state.  The mutex serializes `Handle`,
`WithAttrs`, `WithGroup`, `Close` and the rotation they perform; the
embedding presents each such critical section as one atomic state
transition.  `closeOnce` records whether the `sync.Once` in `Close` has
fired; `tickerActive`/`doneClosed` model the retention-sweep ticker and its
stop channel. -/
structure DailyFileHandler where
  cfg : LogConfig
  curDate : Str
  curFile : Option Nat
  curInner : Option Encoder
  tickerActive : Bool
  doneClosed : Bool
  closeOnce : Bool
deriving DecidableEq, Repr

/-- The log-file name `fmt.Sprintf("%s-%s.log", prefixField, date)`. -/
def logName (cfg : LogConfig) (date : Str) : Str :=
  cfg.fnPre ++ "-".data ++ date ++ ".log".data

/-- Build the inner `slog` handler for a freshly opened file
(`NewJSONHandler` when the format is json, `NewTextHandler` otherwise). -/
def mkInner (cfg : LogConfig) (fid : Nat) : Encoder :=
  ⟨fid, cfg.format = LogFormatJSON, cfg.level, cfg.addSource, [], []⟩

/-- `DailyFileHandler.rotateIfNeeded`: format the record time's day; if it
matches the open day and an inner handler exists, do nothing; otherwise
close the old file (if any), open/create the day's file in append mode and
rebind the inner handler.  Opening inside the (already created) log
directory is modelled as always succeeding. -/
def DailyFileHandler.rotateIfNeeded (h : DailyFileHandler) (fs : FS)
    (t : GoTime) : DailyFileHandler × FS :=
  let date := formatDate t.date
  if date = h.curDate ∧ h.curInner.isSome then (h, fs)
  else
    let fs := match h.curFile with
      | some fid => fs.closeH fid
      | none => fs
    let (fid, fs) := fs.openAppend (logName h.cfg date)
    ({ h with curDate := date, curFile := some fid,
              curInner := some (mkInner h.cfg fid) }, fs)

/-- `DailyFileHandler.Enabled`. -/
def DailyFileHandler.enabled (h : DailyFileHandler) (level : Int) : Bool :=
  h.cfg.level ≤ level

/-- `DailyFileHandler.Handle`: under the lock, rotate against the record's
own timestamp, fail with the uninitialized error if no inner handler is
bound, otherwise delegate to the current inner handler. -/
def DailyFileHandler.handle (h : DailyFileHandler) (fs : FS) (r : Rec) :
    Except GoErr Unit × DailyFileHandler × FS :=
  let (h, fs) := h.rotateIfNeeded fs r.time
  match h.curInner with
  | none => (.error (.mk "file handler not initialized".data), h, fs)
  | some inner =>
    match inner.handleE fs r with
    | .ok fs => (.ok (), h, fs)
    | .error e => (.error e, h, fs)

/-- The `fileHandlerWrapper` produced by `DailyFileHandler.WithAttrs` /
`WithGroup`: a back-reference to the original handler (threaded explicitly
as state here) plus the decorated inner handler captured at decoration
time. -/
structure FileHandlerWrapper where
  inner : Encoder
deriving DecidableEq, Repr

/-- `DailyFileHandler.WithAttrs`: returns the receiver unchanged when no
inner handler is bound, otherwise a wrapper holding the decorated snapshot
of the current inner handler. -/
def DailyFileHandler.withAttrsD (h : DailyFileHandler) (as : List Attr) :
    Option FileHandlerWrapper :=
  match h.curInner with
  | none => none
  | some inner => some ⟨inner.withAttrsE as⟩

/-- `DailyFileHandler.WithGroup`. -/
def DailyFileHandler.withGroupD (h : DailyFileHandler) (g : Str) :
    Option FileHandlerWrapper :=
  match h.curInner with
  | none => none
  | some inner => some ⟨inner.withGroupE g⟩

/-- `fileHandlerWrapper.Handle`: re-enters the original handler's lock,
runs the original's rotation check against the record's own timestamp,
then delegates to the wrapper's captured inner handler. -/
def FileHandlerWrapper.handle (w : FileHandlerWrapper)
    (orig : DailyFileHandler) (fs : FS) (r : Rec) :
    Except GoErr Unit × DailyFileHandler × FS :=
  let (orig, fs) := orig.rotateIfNeeded fs r.time
  match w.inner.handleE fs r with
  | .ok fs => (.ok (), orig, fs)
  | .error e => (.error e, orig, fs)

/-- The observable shutdown actions `Close` may perform. -/
inductive CloseEvt where
  | stopTicker
  | closeDone
  | closeFile (fid : Nat)
deriving DecidableEq, Repr

/-- `DailyFileHandler.Close`: under `closeOnce.Do`, stop the clean ticker,
close the done channel, and close and clear the current file; any later
call does nothing and returns nil.  The performed shutdown actions are
reported as an event trace. -/
def DailyFileHandler.close (h : DailyFileHandler) (fs : FS) :
    Option GoErr × DailyFileHandler × FS × List CloseEvt :=
  if h.closeOnce then (none, h, fs, [])
  else
    let ev1 : List CloseEvt := if h.tickerActive then [.stopTicker] else []
    let ev2 : List CloseEvt := if ¬ h.doneClosed then [.closeDone] else []
    match h.curFile with
    | some fid =>
      (none,
       { h with tickerActive := false, doneClosed := true, closeOnce := true,
                curFile := none, curInner := none },
       fs.closeH fid, ev1 ++ ev2 ++ [.closeFile fid])
    | none =>
      (none,
       { h with tickerActive := false, doneClosed := true, closeOnce := true },
       fs, ev1 ++ ev2)

/-! ## Retention sweep (`cleanOldLogs`) -/

/-- `strings.HasPrefix s pre`. -/
def hasPre (s p : Str) : Bool := p.isPrefixOf s

/-- `strings.HasSuffix s suf`. -/
def hasSuf (s p : Str) : Bool := p.isSuffixOf s

/-- `strings.TrimPrefix s pre`. -/
def trimPre (s p : Str) : Str := if p.isPrefixOf s then s.drop p.length else s

/-- `strings.TrimSuffix s suf`. -/
def trimSuf (s p : Str) : Str :=
  if p.isSuffixOf s then s.take (s.length - p.length) else s

/-- The sweep cutoff `now.AddDate(0, 0, -RetainDays)`. -/
def cutoffTime (now : GoTime) (retain : Int) : GoTime :=
  ⟨subDays now.date retain.toNat, now.sec⟩

/-- Whether one sweep pass deletes the given directory entry: a regular
file whose name has the prefix `{FilenamePrefix}-` and the suffix `.log`,
whose trimmed middle parses as a calendar date, and whose parsed date (an
instant at midnight) is before the cutoff. -/
def sweepDeletes (cfg : LogConfig) (now : GoTime) (f : FSFile) : Bool :=
  if f.isDir then false
  else if ¬ (hasPre f.name (cfg.fnPre ++ "-".data) ∧ hasSuf f.name ".log".data) then
    false
  else
    match parseDate (trimSuf (trimPre f.name (cfg.fnPre ++ "-".data)) ".log".data) with
    | none => false
    | some d => GoTime.before ⟨d, 0⟩ (cutoffTime now cfg.retainDays)

/-- `DailyFileHandler.cleanOldLogs`: no-op when the retention window is
non-positive; otherwise enumerate the directory and remove every entry the
sweep matches as too old.  Removal failures are logged and swallowed in Go,
so a pass never fails. -/
def DailyFileHandler.cleanOldLogs (h : DailyFileHandler) (fs : FS)
    (now : GoTime) : FS :=
  if h.cfg.retainDays ≤ 0 then fs
  else { fs with files := fs.files.filter (fun f => ¬ sweepDeletes h.cfg now f) }

/-- `NewFileHandler`: create the log directory (the FS models that
directory), rotate onto today's file, start the clean ticker, and run the
first retention sweep (the sweep goroutine's immediate pass).  Opening the
first file is modelled as succeeding. -/
def NewFileHandler (cfg : LogConfig) (now : GoTime) (fs : FS) :
    DailyFileHandler × FS :=
  let h0 : DailyFileHandler :=
    { cfg := cfg, curDate := [], curFile := none, curInner := none,
      tickerActive := false, doneClosed := false, closeOnce := false }
  let (h1, fs) := h0.rotateIfNeeded fs now
  let h2 := { h1 with tickerActive := true }
  (h2, h2.cleanOldLogs fs now)

/-! ## `TerminalHandler` -/

/-- One write on the terminal output stream: either raw bytes (color
escapes) or the encoder's rendering of a record (the scratch buffer's
contents; its byte syntax is the external encoder's concern, so it is kept
symbolic together with the attributes the encoder was given, which for the
terminal path is always none). -/
inductive TWrite where
  | chunk (s : Str)
  | payload (r : Rec)
deriving DecidableEq, Repr

/-- ANSI reset. -/
def colorReset : Str := "\x1b[0m".data

/-- ANSI red. -/
def colorRed : Str := "\x1b[31m".data

/-- ANSI yellow. -/
def colorYellow : Str := "\x1b[33m".data

/-- ANSI blue. -/
def colorBlue : Str := "\x1b[34m".data

/-- ANSI gray. -/
def colorGray : Str := "\x1b[90m".data

/-- The `TerminalHandler` state: the handler options captured at
construction, the always-true `colorize` flag, and the `inner` field that
`NewTerminalHandler` never sets and `Handle` never consults. -/
structure TerminalHandler where
  level : Int
  addSource : Bool
  colorize : Bool
  inner : Option Encoder
deriving DecidableEq, Repr

/-- `NewTerminalHandler`. -/
def NewTerminalHandler (cfg : LogConfig) : TerminalHandler :=
  { level := cfg.level, addSource := cfg.addSource, colorize := true,
    inner := none }

/-- The color switch in `TerminalHandler.Handle`. -/
def colorFor (level : Int) : Str :=
  if level ≥ 8 then colorRed
  else if level = 4 then colorYellow
  else if level = 0 then colorBlue
  else colorGray

/-- `TerminalHandler.Handle`: render the record through a fresh text
handler built from the captured options only (a pooled scratch buffer in
Go), then write color prefix, rendered bytes and color reset.  Returns the
sequence of writes issued on the output stream. -/
def TerminalHandler.handle (h : TerminalHandler) (r : Rec) : List TWrite :=
  if h.colorize then
    [.chunk (colorFor r.level), .payload r, .chunk colorReset]
  else
    [.payload r]

/-- `TerminalHandler.WithAttrs`: copies every field (dropping the given
attributes); the `attrs` argument is not used. -/
def TerminalHandler.withAttrsT (h : TerminalHandler) (_as : List Attr) :
    TerminalHandler :=
  { level := h.level, addSource := h.addSource, colorize := h.colorize,
    inner := h.inner }

/-- `TerminalHandler.WithGroup`: copies every field (dropping the group). -/
def TerminalHandler.withGroupT (h : TerminalHandler) (_g : Str) :
    TerminalHandler :=
  { level := h.level, addSource := h.addSource, colorize := h.colorize,
    inner := h.inner }

/-! ## `MultiHandler` -/

/-- A member sink of a `MultiHandler`, abstracted behind the `slog.Handler`
interface: its `Enabled` decision per level and its `Handle` outcome per
record. -/
structure MemberSink where
  enabledF : Int → Bool
  handleF : Rec → Option GoErr

/-- One pass of `MultiHandler.Handle` over the indexed members: returns the
indices whose `Handle` was invoked and the errors collected, in order. -/
def multiPass (r : Rec) : List (Nat × MemberSink) → List Nat × List GoErr
  | [] => ([], [])
  | (i, m) :: rest =>
    let (inv, errs) := multiPass r rest
    if m.enabledF r.level then
      match m.handleF r with
      | some e => (i :: inv, e :: errs)
      | none => (i :: inv, errs)
    else (inv, errs)

/-- `MultiHandler.Handle`: deliver to every member whose own `Enabled`
accepts the record's level, collect the failures, and return
`errors.Join` of them if any, nil otherwise.  Also reports which members
were invoked. -/
def MultiHandler.handleM (members : List MemberSink) (r : Rec) :
    List Nat × Option GoErr :=
  let (inv, errs) := multiPass r members.enum
  (inv, if errs = [] then none else some (errorsJoin errs))

/-- `MultiHandler.Enabled`: true if any member accepts the level. -/
def MultiHandler.enabledM (members : List MemberSink) (level : Int) : Bool :=
  members.any (fun m => m.enabledF level)

/-! ## Process-wide singleton (`InitLogger`) -/

/-- The package-level state: the `sync.Once` flag, the memoized logger
(identified by an allocation id, modelling pointer identity of the
constructed `*slog.Logger`), the memoized `onceFileHandler`, the memoized
`initErr`, the allocation counter, and the process default logger set by
`slog.SetDefault`. -/
structure Glob where
  onceRan : Bool
  onceLogger : Option Nat
  onceFile : Option DailyFileHandler
  memoErr : Option GoErr
  nextLoggerId : Nat
  defaultSet : Option Nat
deriving Repr

/-- The fresh package state at process start. -/
def Glob.start : Glob :=
  { onceRan := false, onceLogger := none, onceFile := none, memoErr := none,
    nextLoggerId := 0, defaultSet := none }

/-- What `InitLogger` returns, computed from the package state after the
`once.Do` call: `(nil, initErr)` on a memoized failure, `(onceLogger, nil)`
otherwise. -/
def initRet (g : Glob) : Option Nat × Option GoErr :=
  match g.memoErr with
  | some e => (none, some e)
  | none => (g.onceLogger, none)

/-- The validation-and-construction body inside `loggerOnce.Do`: validate
(failure is terminal, no sink gets built), build the file handler and/or
terminal handler as requested, reject an empty handler list, wrap in a
`MultiHandler` when both were built, construct the logger and install it
as the process default. -/
def initBody (cfg : LogConfig) (now : GoTime) (g : Glob) (fs : FS) :
    Glob × FS :=
  match cfg.validate with
  | .error e => ({ g with memoErr := some (.wrap "invalid config".data e) }, fs)
  | .ok cfg =>
    let (fileH, fs) :=
      if cfg.output &&& OutputFile ≠ 0 then
        let (h, fs) := NewFileHandler cfg now fs
        (some h, fs)
      else (none, fs)
    let g := { g with onceFile := fileH }
    let numHandlers := (if fileH.isSome then 1 else 0) +
      (if cfg.output &&& OutputTerminal ≠ 0 then 1 else 0)
    if numHandlers = 0 then
      ({ g with memoErr := some (.mk "no output target specified".data) }, fs)
    else
      let lid := g.nextLoggerId
      ({ g with onceLogger := some lid, nextLoggerId := lid + 1,
                defaultSet := some lid }, fs)

/-- `InitLogger`: run the body under `loggerOnce.Do` (exactly once per
process; concurrent callers serialize on the `Once` and all observe the
completed body), then replay the memoized outcome.  The final component
reports whether this call ran the body. -/
def InitLogger (cfg : LogConfig) (now : GoTime) (g : Glob) (fs : FS) :
    (Option Nat × Option GoErr) × Glob × FS × Bool :=
  if g.onceRan then (initRet g, g, fs, false)
  else
    let (g1, fs1) := initBody cfg now g fs
    let g2 := { g1 with onceRan := true }
    (initRet g2, g2, fs1, true)

/-- A whole sequence of `InitLogger` calls (the serialization order the
`sync.Once` imposes on concurrent callers): the list of outcomes, the
final state, and how many calls ran the body. -/
def runInits (g : Glob) (fs : FS) :
    List (LogConfig × GoTime) → List (Option Nat × Option GoErr) × Glob × FS × Nat
  | [] => ([], g, fs, 0)
  | (cfg, now) :: rest =>
    let (res, g1, fs1, ran) := InitLogger cfg now g fs
    let (ress, g2, fs2, n) := runInits g1 fs1 rest
    (res :: ress, g2, fs2, (if ran then 1 else 0) + n)

/-! ## Auxiliary definitions used by the statements -/

/-- Iterate `Close` `n` times, collecting all return values and the
concatenation of all shutdown-action traces. -/
def closeIter (h : DailyFileHandler) (fs : FS) :
    Nat → List (Option GoErr) × DailyFileHandler × FS × List CloseEvt
  | 0 => ([], h, fs, [])
  | n + 1 =>
    let (e, h1, fs1, ev) := h.close fs
    let (es, h2, fs2, evs) := closeIter h1 fs1 n
    (e :: es, h2, fs2, ev ++ evs)

/-- The indices of the members a fan-out dispatch should reach: exactly
those whose own `Enabled` accepts the level. -/
def enabledIdx (members : List MemberSink) (lv : Int) : List Nat :=
  (members.enum.filter (fun p => p.2.enabledF lv)).map (fun p => p.1)

/-- The failures of the enabled members, in member order. -/
def memberFailures (members : List MemberSink) (r : Rec) : List GoErr :=
  members.enum.filterMap
    (fun p => if p.2.enabledF r.level then p.2.handleF r else none)

/-!
# Theorems
-/

theorem multiPass_eq (r : Rec) (l : List (Nat × MemberSink)) :
    multiPass r l =
      ((l.filter (fun p => p.2.enabledF r.level)).map (fun p => p.1),
       l.filterMap (fun p => if p.2.enabledF r.level then p.2.handleF r else none)) := by
  induction l with
  | nil => rfl
  | cons a rest ih =>
    obtain ⟨i, m⟩ := a
    by_cases he : m.enabledF r.level
    · cases hr : m.handleF r <;>
        simp [multiPass, ih, he, List.filter_cons, List.filterMap_cons, hr]
    · simp [multiPass, ih, he, List.filter_cons, List.filterMap_cons]

/-- C2: the fan-out dispatcher's `Handle` invokes `Handle` on every member
whose own `Enabled` accepts the record's level, even when an earlier member
failed; it returns success iff no enabled member failed, and otherwise one
aggregate failure joining every member failure that occurred. -/
theorem multiHandler_fanout_aggregates (members : List MemberSink) (r : Rec) :
    (MultiHandler.handleM members r).1 = enabledIdx members r.level ∧
    ((MultiHandler.handleM members r).2 = none ↔ memberFailures members r = []) ∧
    (memberFailures members r ≠ [] →
      (MultiHandler.handleM members r).2 = some (errorsJoin (memberFailures members r))) := by
  unfold MultiHandler.handleM enabledIdx memberFailures
  rw [multiPass_eq]
  refine ⟨rfl, ?_, ?_⟩
  · constructor
    · intro h
      by_contra hne
      simp only [if_neg hne] at h
      exact Option.noConfusion h
    · intro h; simp [h]
  · intro h; simp [h]

/-- C2 witness: a dispatcher over one failing and one succeeding enabled
sink still invokes both and reports the aggregate failure. -/
theorem multiHandler_fanout_aggregates_witness :
    (MultiHandler.handleM
      [⟨fun _ => true, fun _ => some (.mk "boom".data)⟩,
       ⟨fun _ => true, fun _ => none⟩] ⟨0, ⟨⟨2024, 1, 1⟩, 0⟩, "m".data, []⟩).1 =
      [0, 1] ∧
    (MultiHandler.handleM
      [⟨fun _ => true, fun _ => some (.mk "boom".data)⟩,
       ⟨fun _ => true, fun _ => none⟩] ⟨0, ⟨⟨2024, 1, 1⟩, 0⟩, "m".data, []⟩).2 =
      some (errorsJoin [.mk "boom".data]) := by
  refine ⟨(multiHandler_fanout_aggregates _ _).1.trans (by decide), ?_⟩
  exact (multiHandler_fanout_aggregates
    [⟨fun _ => true, fun _ => some (.mk "boom".data)⟩,
     ⟨fun _ => true, fun _ => none⟩] ⟨0, ⟨⟨2024, 1, 1⟩, 0⟩, "m".data, []⟩).2.2
    (by decide)

/-- C7: decoration on the terminal sink is the identity on output —
`WithAttrs`/`WithGroup` produce a handler whose `Handle` emits, for every
record, exactly the writes of the undecorated handler; the bound
attributes and group are silently discarded. -/
theorem terminalHandler_decoration_identity (h : TerminalHandler)
    (as : List Attr) (g : Str) (r : Rec) :
    TerminalHandler.handle (h.withAttrsT as) r = h.handle r ∧
    TerminalHandler.handle (h.withGroupT g) r = h.handle r := by
  exact ⟨rfl, rfl⟩

/-- C9: every record handled by the terminal sink is emitted as one color
prefix chosen purely from its severity, the rendered record, and exactly
one color reset; error-and-above is red, warning yellow, informational
blue, below-informational gray, and the four colors are pairwise
distinct. -/
theorem terminalHandler_colors (cfg : LogConfig) (r : Rec) :
    (NewTerminalHandler cfg).handle r =
      [.chunk (colorFor r.level), .payload r, .chunk colorReset] ∧
    (8 ≤ r.level → colorFor r.level = colorRed) ∧
    (r.level = 4 → colorFor r.level = colorYellow) ∧
    (r.level = 0 → colorFor r.level = colorBlue) ∧
    (r.level < 0 → colorFor r.level = colorGray) ∧
    ((NewTerminalHandler cfg).handle r).count (.chunk colorReset) = 1 ∧
    colorRed ≠ colorYellow ∧ colorRed ≠ colorBlue ∧ colorRed ≠ colorGray ∧
    colorYellow ≠ colorBlue ∧ colorYellow ≠ colorGray ∧ colorBlue ≠ colorGray := by
  refine ⟨rfl, ?_, ?_, ?_, ?_, ?_, ?_, ?_, ?_, ?_, ?_, ?_⟩
  · intro h; simp [colorFor, if_pos h]
  · intro h; unfold colorFor; rw [if_neg (by omega), if_pos h]
  · intro h; unfold colorFor; rw [if_neg (by omega), if_neg (by omega), if_pos h]
  · intro h; unfold colorFor
    rw [if_neg (by omega), if_neg (by omega), if_neg (by omega)]
  · show (List.count _ _ = 1)
    have : colorFor r.level ≠ colorReset := by
      unfold colorFor; split
      · decide
      · split
        · decide
        · split <;> decide
    simp [TerminalHandler.handle, NewTerminalHandler, List.count_cons, this]
  all_goals decide

/-- C9 witness: the color selection and write shape at the four severity
levels debug (-4), info (0), warn (4) and error (8). -/
theorem terminalHandler_colors_witness :
    colorFor 8 = colorRed ∧ colorFor 4 = colorYellow ∧
    colorFor 0 = colorBlue ∧ colorFor (-4) = colorGray ∧
    (NewTerminalHandler ⟨OutputTerminal, [], [], 0, LogFormatText, 0, false⟩).handle
        ⟨8, ⟨⟨2024, 1, 1⟩, 0⟩, "m".data, []⟩ =
      [.chunk colorRed, .payload ⟨8, ⟨⟨2024, 1, 1⟩, 0⟩, "m".data, []⟩,
       .chunk colorReset] := by
  have h8 := terminalHandler_colors ⟨OutputTerminal, [], [], 0, LogFormatText, 0, false⟩
    ⟨8, ⟨⟨2024, 1, 1⟩, 0⟩, "m".data, []⟩
  have h4 := terminalHandler_colors ⟨OutputTerminal, [], [], 0, LogFormatText, 0, false⟩
    ⟨4, ⟨⟨2024, 1, 1⟩, 0⟩, "m".data, []⟩
  have h0 := terminalHandler_colors ⟨OutputTerminal, [], [], 0, LogFormatText, 0, false⟩
    ⟨0, ⟨⟨2024, 1, 1⟩, 0⟩, "m".data, []⟩
  have hd := terminalHandler_colors ⟨OutputTerminal, [], [], 0, LogFormatText, 0, false⟩
    ⟨-4, ⟨⟨2024, 1, 1⟩, 0⟩, "m".data, []⟩
  refine ⟨h8.2.1 (by norm_num), h4.2.2.1 rfl, h0.2.2.2.1 rfl,
    hd.2.2.2.2.1 (by norm_num), ?_⟩
  rw [h8.1, h8.2.1 (by norm_num)]

theorem close_noop (h : DailyFileHandler) (fs : FS) (hc : h.closeOnce = true) :
    h.close fs = (none, h, fs, []) := by
  simp [DailyFileHandler.close, hc]

theorem closeIter_noop (h : DailyFileHandler) (fs : FS) (n : Nat)
    (hc : h.closeOnce = true) :
    closeIter h fs n = (List.replicate n none, h, fs, []) := by
  induction n with
  | zero => rfl
  | succ m ih => simp [closeIter, close_noop h fs hc, ih, List.replicate_succ]

/-- C8: `Close` is idempotent — across any `n ≥ 1` consecutive `Close`
calls on a live sink, all shutdown actions happen in the first call, every
call (the later ones in particular) returns success, the ticker is stopped
exactly once, the stop signal is delivered exactly once, the file handle is
released exactly once, and after the first call the handle and encoder are
cleared. -/
theorem dailyFileHandler_close_idempotent (h : DailyFileHandler) (fs : FS)
    (n : Nat) (hlive : h.closeOnce = false) (ht : h.tickerActive = true)
    (hd : h.doneClosed = false) (hsync : h.curFile = none → h.curInner = none)
    (hn : 1 ≤ n) :
    (closeIter h fs n).1 = List.replicate n none ∧
    (closeIter h fs n).2.2.2 = (h.close fs).2.2.2 ∧
    (closeIter h fs n).2.1 = (h.close fs).2.1 ∧
    (closeIter h fs n).2.2.1 = (h.close fs).2.2.1 ∧
    ((h.close fs).2.2.2).count .stopTicker = 1 ∧
    ((h.close fs).2.2.2).count .closeDone = 1 ∧
    (∀ fid, h.curFile = some fid →
      ((h.close fs).2.2.2).count (.closeFile fid) = 1) ∧
    (h.close fs).2.1.curFile = none ∧ (h.close fs).2.1.curInner = none := by
  obtain ⟨m, rfl⟩ : ∃ m, n = m + 1 := ⟨n - 1, by omega⟩
  have honce : (h.close fs).2.1.closeOnce = true := by
    unfold DailyFileHandler.close
    rw [if_neg (by simp [hlive])]
    cases h.curFile <;> simp
  have hiter : closeIter h fs (m + 1) =
      ((h.close fs).1 :: List.replicate m none, (h.close fs).2.1,
       (h.close fs).2.2.1, (h.close fs).2.2.2 ++ []) := by
    simp [closeIter, closeIter_noop _ _ _ honce]
  refine ⟨?_, ?_, ?_, ?_, ?_, ?_, ?_, ?_, ?_⟩
  · rw [hiter]
    have : (h.close fs).1 = none := by
      unfold DailyFileHandler.close
      rw [if_neg (by simp [hlive])]
      cases h.curFile <;> simp
    simp [this, List.replicate_succ]
  · rw [hiter]; simp
  · rw [hiter]
  · rw [hiter]
  · unfold DailyFileHandler.close
    rw [if_neg (by simp [hlive])]
    cases h.curFile <;> simp [ht, hd]
  · unfold DailyFileHandler.close
    rw [if_neg (by simp [hlive])]
    cases h.curFile <;> simp [ht, hd]
  · intro fid hfid
    unfold DailyFileHandler.close
    rw [if_neg (by simp [hlive])]
    simp [hfid, ht, hd]
  · unfold DailyFileHandler.close
    rw [if_neg (by simp [hlive])]
    cases hcf : h.curFile <;> simp [hcf]
  · unfold DailyFileHandler.close
    rw [if_neg (by simp [hlive])]
    cases hcf : h.curFile with
    | none => simp [hcf, hsync hcf]
    | some fid => simp [hcf]

/-- C8 witness: three consecutive `Close` calls on a live sink with an open
file: all three return success, the single shutdown trace stops the ticker
once, signals the sweep once and closes file handle 0 once. -/
theorem dailyFileHandler_close_idempotent_witness :
    (closeIter
      ⟨⟨OutputFile, "./logs".data, "app".data, 30, LogFormatText, 0, false⟩,
       "2024-01-01".data, some 0,
       some (mkInner ⟨OutputFile, "./logs".data, "app".data, 30, LogFormatText, 0, false⟩ 0),
       true, false, false⟩
      ⟨[⟨"app-2024-01-01.log".data, false, []⟩], [⟨0, "app-2024-01-01.log".data, true⟩], 1⟩
      3).1 = [none, none, none] ∧
    (closeIter
      ⟨⟨OutputFile, "./logs".data, "app".data, 30, LogFormatText, 0, false⟩,
       "2024-01-01".data, some 0,
       some (mkInner ⟨OutputFile, "./logs".data, "app".data, 30, LogFormatText, 0, false⟩ 0),
       true, false, false⟩
      ⟨[⟨"app-2024-01-01.log".data, false, []⟩], [⟨0, "app-2024-01-01.log".data, true⟩], 1⟩
      3).2.2.2.count (.closeFile 0) = 1 := by
  have h := dailyFileHandler_close_idempotent
    ⟨⟨OutputFile, "./logs".data, "app".data, 30, LogFormatText, 0, false⟩,
     "2024-01-01".data, some 0,
     some (mkInner ⟨OutputFile, "./logs".data, "app".data, 30, LogFormatText, 0, false⟩ 0),
     true, false, false⟩
    ⟨[⟨"app-2024-01-01.log".data, false, []⟩], [⟨0, "app-2024-01-01.log".data, true⟩], 1⟩
    3 rfl rfl rfl (by intro hx; exact absurd hx (by decide)) (by omega)
  refine ⟨h.1.trans (by decide), ?_⟩
  rw [h.2.1]
  exact h.2.2.2.2.2.2.1 0 rfl

theorem initLogger_after (cfg : LogConfig) (now : GoTime) (g : Glob) (fs : FS)
    (h : g.onceRan = true) :
    InitLogger cfg now g fs = (initRet g, g, fs, false) := by
  simp [InitLogger, h]

theorem runInits_after (cs : List (LogConfig × GoTime)) (g : Glob) (fs : FS)
    (h : g.onceRan = true) :
    runInits g fs cs = (List.replicate cs.length (initRet g), g, fs, 0) := by
  induction cs with
  | nil => rfl
  | cons c rest ih =>
    obtain ⟨cfg, now⟩ := c
    simp [runInits, initLogger_after cfg now g fs h, ih, List.replicate_succ]

/-- C3: across any sequence of `InitLogger` calls (in the serialization
order the `sync.Once` imposes, covering concurrent and repeated calls with
the same or different configurations), the validation-and-construction
body runs exactly once, and every caller — the first included — receives
the same memoized outcome: one shared logger instance on success or the
one failure the body produced. -/
theorem initLogger_once_memoized (cs : List (LogConfig × GoTime)) (fs : FS)
    (hne : cs ≠ []) :
    (runInits Glob.start fs cs).2.2.2 = 1 ∧
    ∃ out, (runInits Glob.start fs cs).1 = List.replicate cs.length out ∧
      out = initRet (runInits Glob.start fs cs).2.1 := by
  match cs with
  | (cfg, now) :: rest =>
    have hfresh : Glob.start.onceRan = false := rfl
    have honce : (InitLogger cfg now Glob.start fs).2.1.onceRan = true := by
      simp [InitLogger, hfresh]
    have hrun : (InitLogger cfg now Glob.start fs).2.2.2 = true := by
      simp [InitLogger, hfresh]
    have hres : (InitLogger cfg now Glob.start fs).1 =
        initRet (InitLogger cfg now Glob.start fs).2.1 := by
      simp [InitLogger, hfresh]
    refine ⟨?_, initRet (InitLogger cfg now Glob.start fs).2.1, ?_, ?_⟩
    · simp [runInits, hrun,
        runInits_after rest (InitLogger cfg now Glob.start fs).2.1
          (InitLogger cfg now Glob.start fs).2.2.1 honce]
    · simp [runInits,
        runInits_after rest (InitLogger cfg now Glob.start fs).2.1
          (InitLogger cfg now Glob.start fs).2.2.1 honce,
        hres, List.replicate_succ]
    · simp [runInits,
        runInits_after rest (InitLogger cfg now Glob.start fs).2.1
          (InitLogger cfg now Glob.start fs).2.2.1 honce]

/-- C3 witness: two sequential callers with different configurations — one
body run, both callers observe the identical outcome. -/
theorem initLogger_once_memoized_witness :
    (runInits Glob.start ⟨[], [], 0⟩
      [(⟨OutputTerminal, [], [], 0, LogFormatText, 0, false⟩, ⟨⟨2024, 1, 1⟩, 0⟩),
       (⟨OutputNone, [], [], 0, LogFormatText, 0, false⟩, ⟨⟨2024, 1, 2⟩, 0⟩)]).2.2.2 = 1 ∧
    ∃ out, (runInits Glob.start ⟨[], [], 0⟩
      [(⟨OutputTerminal, [], [], 0, LogFormatText, 0, false⟩, ⟨⟨2024, 1, 1⟩, 0⟩),
       (⟨OutputNone, [], [], 0, LogFormatText, 0, false⟩, ⟨⟨2024, 1, 2⟩, 0⟩)]).1 =
        List.replicate 2 out ∧
      out = initRet (runInits Glob.start ⟨[], [], 0⟩
        [(⟨OutputTerminal, [], [], 0, LogFormatText, 0, false⟩, ⟨⟨2024, 1, 1⟩, 0⟩),
         (⟨OutputNone, [], [], 0, LogFormatText, 0, false⟩, ⟨⟨2024, 1, 2⟩, 0⟩)]).2.1 :=
  initLogger_once_memoized
    [(⟨OutputTerminal, [], [], 0, LogFormatText, 0, false⟩, ⟨⟨2024, 1, 1⟩, 0⟩),
     (⟨OutputNone, [], [], 0, LogFormatText, 0, false⟩, ⟨⟨2024, 1, 2⟩, 0⟩)]
    ⟨[], [], 0⟩ (by simp)

/-- C10: inside `Init`, an output selector of none fails before any sink is
built (the file handler slot stays empty and the filesystem is untouched);
with file output requested, a blank directory, blank filename prefix and
non-positive retention are replaced by the fixed fallbacks `./logs`, `app`
and 30; an empty format defaults to text and an unrecognized format fails
validation; and the validation outcome is produced once per process and
never retried. -/
theorem initLogger_validation :
    (∀ (cfg : LogConfig) (now : GoTime) (fs : FS), cfg.output = OutputNone →
      (InitLogger cfg now Glob.start fs).1 =
        (none, some (.wrap "invalid config".data
          (.mk "output target cannot be OutputNone".data))) ∧
      (InitLogger cfg now Glob.start fs).2.1.onceFile = none ∧
      (InitLogger cfg now Glob.start fs).2.1.onceLogger = none ∧
      (InitLogger cfg now Glob.start fs).2.2.1 = fs) ∧
    (∀ cfg cfg' : LogConfig, cfg.validate = .ok cfg' →
        cfg.output &&& OutputFile ≠ 0 →
      (cfg.dir = [] → cfg'.dir = "./logs".data) ∧
      (cfg.fnPre = [] → cfg'.fnPre = "app".data) ∧
      (cfg.retainDays ≤ 0 → cfg'.retainDays = 30)) ∧
    (∀ cfg cfg' : LogConfig, cfg.validate = .ok cfg' → cfg.format = [] →
      cfg'.format = LogFormatText) ∧
    (∀ cfg : LogConfig, cfg.format ≠ [] → cfg.format ≠ LogFormatText →
      cfg.format ≠ LogFormatJSON → ∃ e, cfg.validate = .error e) ∧
    (∀ (cfg : LogConfig) (now : GoTime) (g : Glob) (fs : FS),
      g.onceRan = true → (InitLogger cfg now g fs).2.2.2 = false) ∧
    (∀ (cfg : LogConfig) (now : GoTime) (fs : FS),
      (InitLogger cfg now Glob.start fs).2.1.onceRan = true) := by
  have hfmt1 : ∀ cfg : LogConfig, (fillFileDefaults cfg).format = cfg.format := by
    intro cfg; unfold fillFileDefaults; split <;> rfl
  have hfd : ∀ cfg : LogConfig, (fillFormatDefault cfg).dir = cfg.dir ∧
      (fillFormatDefault cfg).fnPre = cfg.fnPre ∧
      (fillFormatDefault cfg).retainDays = cfg.retainDays := by
    intro cfg; unfold fillFormatDefault; split <;> exact ⟨rfl, rfl, rfl⟩
  refine ⟨?_, ?_, ?_, ?_, ?_, ?_⟩
  · intro cfg now fs hnone
    simp [InitLogger, Glob.start, initBody, LogConfig.validate, hnone, initRet]
  · intro cfg cfg' hok hbit
    unfold LogConfig.validate at hok
    split at hok
    · exact absurd hok (by simp)
    · split at hok
      · exact absurd hok (by simp)
      · obtain rfl := Except.ok.inj hok
        obtain ⟨hd1, hp1, hr1⟩ := hfd (fillFileDefaults cfg)
        rw [hd1, hp1, hr1]
        unfold fillFileDefaults
        rw [if_pos hbit]
        refine ⟨?_, ?_, ?_⟩ <;> intro hblank <;> simp [hblank]
  · intro cfg cfg' hok hfe
    unfold LogConfig.validate at hok
    split at hok
    · exact absurd hok (by simp)
    · split at hok
      · exact absurd hok (by simp)
      · obtain rfl := Except.ok.inj hok
        have : (fillFileDefaults cfg).format = [] := by rw [hfmt1, hfe]
        unfold fillFormatDefault
        rw [if_pos this]
  · intro cfg hne htext hjson
    unfold LogConfig.validate
    split
    · exact ⟨_, rfl⟩
    · have hke : (fillFormatDefault (fillFileDefaults cfg)).format = cfg.format := by
        unfold fillFormatDefault
        rw [if_neg (by rw [hfmt1]; exact hne), hfmt1]
      rw [if_pos (by rw [hke]; exact ⟨htext, hjson⟩)]
      exact ⟨_, rfl⟩
  · intro cfg now g fs hran
    simp [InitLogger, hran]
  · intro cfg now fs
    simp [InitLogger, Glob.start]

/-- C10 witness: the concrete fallback-filling run — a file-output
configuration with blank directory, blank prefix, zero retention and empty
format validates to `./logs`, `app`, 30 and text; an `OutputNone`
configuration makes `Init` fail with nothing built; a bad format fails;
and a second call never re-runs the body. -/
theorem initLogger_validation_witness :
    ((InitLogger ⟨OutputNone, [], [], 0, [], 0, false⟩ ⟨⟨2024, 1, 1⟩, 0⟩
        Glob.start ⟨[], [], 0⟩).2.1.onceFile = none ∧
      (InitLogger ⟨OutputNone, [], [], 0, [], 0, false⟩ ⟨⟨2024, 1, 1⟩, 0⟩
        Glob.start ⟨[], [], 0⟩).2.2.1 = ⟨[], [], 0⟩) ∧
    (LogConfig.validate ⟨OutputFile, [], [], 0, [], 0, false⟩ =
      .ok ⟨OutputFile, "./logs".data, "app".data, 30, LogFormatText, 0, false⟩) ∧
    (∃ e, LogConfig.validate ⟨OutputFile, [], [], 0, "xml".data, 0, false⟩ =
      .error e) ∧
    (InitLogger ⟨OutputTerminal, [], [], 0, [], 0, false⟩ ⟨⟨2024, 1, 2⟩, 0⟩
      (InitLogger ⟨OutputTerminal, [], [], 0, [], 0, false⟩ ⟨⟨2024, 1, 1⟩, 0⟩
        Glob.start ⟨[], [], 0⟩).2.1
      ⟨[], [], 0⟩).2.2.2 = false := by
  have hv := initLogger_validation
  refine ⟨⟨((hv.1 ⟨OutputNone, [], [], 0, [], 0, false⟩ ⟨⟨2024, 1, 1⟩, 0⟩
      ⟨[], [], 0⟩) rfl).2.1,
    ((hv.1 ⟨OutputNone, [], [], 0, [], 0, false⟩ ⟨⟨2024, 1, 1⟩, 0⟩
      ⟨[], [], 0⟩) rfl).2.2.2⟩, rfl, ?_, ?_⟩
  · exact hv.2.2.2.1 ⟨OutputFile, [], [], 0, "xml".data, 0, false⟩
      (by decide) (by decide) (by decide)
  · exact hv.2.2.2.2.1 _ _ _ _
      (hv.2.2.2.2.2 ⟨OutputTerminal, [], [], 0, [], 0, false⟩ ⟨⟨2024, 1, 1⟩, 0⟩
        ⟨[], [], 0⟩)

theorem rotate_same_day (h : DailyFileHandler) (fs : FS) (t : GoTime)
    (hd : formatDate t.date = h.curDate) (hs : h.curInner.isSome) :
    h.rotateIfNeeded fs t = (h, fs) := by
  unfold DailyFileHandler.rotateIfNeeded
  rw [if_pos ⟨hd, hs⟩]

theorem rotate_new_day (h : DailyFileHandler) (fs : FS) (t : GoTime)
    (fid : Nat) (hcf : h.curFile = some fid)
    (hd : formatDate t.date ≠ h.curDate) :
    h.rotateIfNeeded fs t =
      ({ h with curDate := formatDate t.date, curFile := some fs.nextH,
                curInner := some (mkInner h.cfg fs.nextH) },
       ((fs.closeH fid).openAppend (logName h.cfg (formatDate t.date))).2) := by
  unfold DailyFileHandler.rotateIfNeeded
  rw [if_neg (by rintro ⟨h1, _⟩; exact hd h1), hcf]
  rfl

theorem rotate_reopen (h : DailyFileHandler) (fs : FS) (t : GoTime)
    (hcf : h.curFile = none) (hci : h.curInner = none) :
    h.rotateIfNeeded fs t =
      ({ h with curDate := formatDate t.date, curFile := some fs.nextH,
                curInner := some (mkInner h.cfg fs.nextH) },
       (fs.openAppend (logName h.cfg (formatDate t.date))).2) := by
  unfold DailyFileHandler.rotateIfNeeded
  rw [if_neg (by rintro ⟨_, h2⟩; rw [hci] at h2; exact Bool.noConfusion h2), hcf]
  rfl

theorem writeH_found (fs : FS) (i : Nat) (w : Written) (n : Str)
    (hf : fs.findHandle i = some ⟨i, n, true⟩) :
    fs.writeH i w = .ok (fs.appendTo n w) := by
  unfold FS.writeH
  rw [hf]
  rfl

theorem findHandle_openAppend_self (fs : FS) (n : Str)
    (hfresh : ∀ a ∈ fs.handles, a.id < fs.nextH) :
    ((fs.openAppend n).2).findHandle fs.nextH = some ⟨fs.nextH, n, true⟩ := by
  unfold FS.openAppend FS.findHandle
  have h1 : fs.handles.find? (fun a => a.id = fs.nextH) = none := by
    rw [List.find?_eq_none]
    intro a ha
    simp only [decide_eq_true_eq]
    exact Nat.ne_of_lt (hfresh a ha)
  cases hm : fs.findFile n <;>
    simp only [hm, List.find?_append, h1, Option.none_or] <;>
    simp [List.find?]

theorem closeH_nextH (fs : FS) (fid : Nat) : (fs.closeH fid).nextH = fs.nextH := rfl

theorem closeH_fresh (fs : FS) (fid : Nat)
    (hfresh : ∀ a ∈ fs.handles, a.id < fs.nextH) :
    ∀ a ∈ (fs.closeH fid).handles, a.id < (fs.closeH fid).nextH := by
  intro a ha
  rw [closeH_nextH]
  simp only [FS.closeH, List.mem_map] at ha
  obtain ⟨b, hb, rfl⟩ := ha
  split <;> exact hfresh b hb

/-- C4: the destination file of a record handled by the rotating file sink
is a function of the record's own timestamp only — a record whose calendar
day matches the open day is appended to the current file with no rotation,
a record on a different day closes the old handle, opens
`{prefix}-{day-of-record}.log` in create-or-append mode and is written
there; and valid distinct days always yield distinct file names. -/
theorem dailyFileHandler_rotation_by_record_time
    (h : DailyFileHandler) (fs : FS) (r : Rec) (fid : Nat)
    (hcf : h.curFile = some fid)
    (hci : h.curInner = some (mkInner h.cfg fid))
    (hfh : fs.findHandle fid = some ⟨fid, logName h.cfg h.curDate, true⟩)
    (hfresh : ∀ a ∈ fs.handles, a.id < fs.nextH) :
    (formatDate r.time.date = h.curDate →
      (h.handle fs r).1 = .ok () ∧
      (h.handle fs r).2.1 = h ∧
      (h.handle fs r).2.2 = fs.appendTo (logName h.cfg h.curDate) ⟨r, [], []⟩) ∧
    (formatDate r.time.date ≠ h.curDate →
      (h.handle fs r).1 = .ok () ∧
      (h.handle fs r).2.1.curDate = formatDate r.time.date ∧
      (h.handle fs r).2.1.curFile = some fs.nextH ∧
      (h.handle fs r).2.2 =
        (((fs.closeH fid).openAppend
            (logName h.cfg (formatDate r.time.date))).2).appendTo
          (logName h.cfg (formatDate r.time.date)) ⟨r, [], []⟩) ∧
    (∀ d1 d2 : Date, d1.valid → d2.valid → d1 ≠ d2 →
      logName h.cfg (formatDate d1) ≠ logName h.cfg (formatDate d2)) := by
  refine ⟨?_, ?_, ?_⟩
  · intro hsame
    have hrot := rotate_same_day h fs r.time hsame (by rw [hci]; rfl)
    unfold DailyFileHandler.handle
    rw [hrot]
    simp only [hci]
    rw [show (mkInner h.cfg fid).handleE fs r =
        .ok (fs.appendTo (logName h.cfg h.curDate) ⟨r, [], []⟩) from
      writeH_found fs fid ⟨r, [], []⟩ (logName h.cfg h.curDate) hfh]
    exact ⟨rfl, rfl, rfl⟩
  · intro hdiff
    have hrot := rotate_new_day h fs r.time fid hcf hdiff
    unfold DailyFileHandler.handle
    rw [hrot]
    have hfind :
        (((fs.closeH fid).openAppend
            (logName h.cfg (formatDate r.time.date))).2).findHandle fs.nextH =
          some ⟨fs.nextH, logName h.cfg (formatDate r.time.date), true⟩ := by
      have := findHandle_openAppend_self (fs.closeH fid)
        (logName h.cfg (formatDate r.time.date)) (closeH_fresh fs fid hfresh)
      rwa [closeH_nextH] at this
    simp only
    rw [show (mkInner h.cfg fs.nextH).handleE
          ((fs.closeH fid).openAppend (logName h.cfg (formatDate r.time.date))).2 r =
        .ok ((((fs.closeH fid).openAppend
            (logName h.cfg (formatDate r.time.date))).2).appendTo
          (logName h.cfg (formatDate r.time.date)) ⟨r, [], []⟩) from
      writeH_found _ fs.nextH ⟨r, [], []⟩ _ hfind]
    exact ⟨rfl, rfl, rfl, rfl⟩
  · intro d1 d2 hv1 hv2 hne he
    unfold logName at he
    have h10a : (formatDate d1).length = 10 := by
      rw [parseDate_length (parseDate_formatDate d1 hv1)]
    have h10b : (formatDate d2).length = 10 := by
      rw [parseDate_length (parseDate_formatDate d2 hv2)]
    have h1 := List.append_cancel_left
      ((List.append_assoc _ _ _).symm.trans
        (he.trans (List.append_assoc _ _ _)))
    have h2 := (List.append_inj h1 (by rw [h10a, h10b])).1
    exact formatDate_inj d1 d2 hv1 hv2 hne h2

/-- C4 witness: a sink open on 2024-01-01 handling a record timestamped
2024-01-02 succeeds, rotates, and the directory ends with two distinct
day-files, the record's bytes in the 2024-01-02 file. -/
theorem dailyFileHandler_rotation_by_record_time_witness :
    ((DailyFileHandler.handle
      ⟨⟨OutputFile, "./logs".data, "app".data, 30, LogFormatText, 0, false⟩,
       "2024-01-01".data, some 0,
       some (mkInner ⟨OutputFile, "./logs".data, "app".data, 30, LogFormatText, 0, false⟩ 0),
       true, false, false⟩
      ⟨[⟨"app-2024-01-01.log".data, false, []⟩],
       [⟨0, "app-2024-01-01.log".data, true⟩], 1⟩
      ⟨0, ⟨⟨2024, 1, 2⟩, 60⟩, "m".data, []⟩).1 = .ok ()) ∧
    ((DailyFileHandler.handle
      ⟨⟨OutputFile, "./logs".data, "app".data, 30, LogFormatText, 0, false⟩,
       "2024-01-01".data, some 0,
       some (mkInner ⟨OutputFile, "./logs".data, "app".data, 30, LogFormatText, 0, false⟩ 0),
       true, false, false⟩
      ⟨[⟨"app-2024-01-01.log".data, false, []⟩],
       [⟨0, "app-2024-01-01.log".data, true⟩], 1⟩
      ⟨0, ⟨⟨2024, 1, 2⟩, 60⟩, "m".data, []⟩).2.2.files =
      [⟨"app-2024-01-01.log".data, false, []⟩,
       ⟨"app-2024-01-02.log".data, false,
        [⟨⟨0, ⟨⟨2024, 1, 2⟩, 60⟩, "m".data, []⟩, [], []⟩]⟩]) := by
  have h := dailyFileHandler_rotation_by_record_time
    ⟨⟨OutputFile, "./logs".data, "app".data, 30, LogFormatText, 0, false⟩,
     "2024-01-01".data, some 0,
     some (mkInner ⟨OutputFile, "./logs".data, "app".data, 30, LogFormatText, 0, false⟩ 0),
     true, false, false⟩
    ⟨[⟨"app-2024-01-01.log".data, false, []⟩],
     [⟨0, "app-2024-01-01.log".data, true⟩], 1⟩
    ⟨0, ⟨⟨2024, 1, 2⟩, 60⟩, "m".data, []⟩ 0 rfl rfl (by decide) (by decide)
  exact ⟨(h.2.1 (by decide)).1, by decide⟩

/-- C5 (amended): after `Close` has cleared the file and encoder, a
subsequent `Handle` does not fail with the uninitialized-sink error —
`rotateIfNeeded` sees no bound encoder, reopens the record's day file
through a fresh handle (never the released one) and the write succeeds. -/
theorem dailyFileHandler_handle_after_close
    (h : DailyFileHandler) (fs : FS) (r : Rec)
    (hcf : h.curFile = none) (hci : h.curInner = none)
    (hfresh : ∀ a ∈ fs.handles, a.id < fs.nextH) :
    (h.handle fs r).1 = .ok () ∧
    (h.handle fs r).2.1.curFile = some fs.nextH ∧
    fs.findHandle fs.nextH = none ∧
    (h.handle fs r).2.2 =
      ((fs.openAppend (logName h.cfg (formatDate r.time.date))).2).appendTo
        (logName h.cfg (formatDate r.time.date)) ⟨r, [], []⟩ := by
  have hrot := rotate_reopen h fs r.time hcf hci
  have hfind := findHandle_openAppend_self fs
    (logName h.cfg (formatDate r.time.date)) hfresh
  unfold DailyFileHandler.handle
  rw [hrot]
  simp only
  rw [show (mkInner h.cfg fs.nextH).handleE
        (fs.openAppend (logName h.cfg (formatDate r.time.date))).2 r =
      .ok (((fs.openAppend (logName h.cfg (formatDate r.time.date))).2).appendTo
        (logName h.cfg (formatDate r.time.date)) ⟨r, [], []⟩) from
    writeH_found _ fs.nextH ⟨r, [], []⟩ _ hfind]
  refine ⟨rfl, rfl, ?_, rfl⟩
  unfold FS.findHandle
  rw [List.find?_eq_none]
  intro a ha
  simp only [decide_eq_true_eq]
  exact Nat.ne_of_lt (hfresh a ha)

/-- C5 witness: a concrete sink that was constructed on 2024-01-01 and then
closed; handling a same-day record afterwards reopens the day file via a
fresh handle and succeeds. -/
theorem dailyFileHandler_handle_after_close_witness :
    (DailyFileHandler.handle
      ⟨⟨OutputFile, "./logs".data, "app".data, 30, LogFormatText, 0, false⟩,
       "2024-01-01".data, none, none, false, true, true⟩
      ⟨[⟨"app-2024-01-01.log".data, false, []⟩],
       [⟨0, "app-2024-01-01.log".data, false⟩], 1⟩
      ⟨0, ⟨⟨2024, 1, 1⟩, 120⟩, "m".data, []⟩).1 = .ok () ∧
    (DailyFileHandler.handle
      ⟨⟨OutputFile, "./logs".data, "app".data, 30, LogFormatText, 0, false⟩,
       "2024-01-01".data, none, none, false, true, true⟩
      ⟨[⟨"app-2024-01-01.log".data, false, []⟩],
       [⟨0, "app-2024-01-01.log".data, false⟩], 1⟩
      ⟨0, ⟨⟨2024, 1, 1⟩, 120⟩, "m".data, []⟩).2.1.curFile = some 1 :=
  ⟨(dailyFileHandler_handle_after_close
      ⟨⟨OutputFile, "./logs".data, "app".data, 30, LogFormatText, 0, false⟩,
       "2024-01-01".data, none, none, false, true, true⟩
      ⟨[⟨"app-2024-01-01.log".data, false, []⟩],
       [⟨0, "app-2024-01-01.log".data, false⟩], 1⟩
      ⟨0, ⟨⟨2024, 1, 1⟩, 120⟩, "m".data, []⟩ rfl rfl (by decide)).1,
   (dailyFileHandler_handle_after_close
      ⟨⟨OutputFile, "./logs".data, "app".data, 30, LogFormatText, 0, false⟩,
       "2024-01-01".data, none, none, false, true, true⟩
      ⟨[⟨"app-2024-01-01.log".data, false, []⟩],
       [⟨0, "app-2024-01-01.log".data, false⟩], 1⟩
      ⟨0, ⟨⟨2024, 1, 1⟩, 120⟩, "m".data, []⟩ rfl rfl (by decide)).2.1⟩

/-- C5 counterexample: the claim says every `Handle` after `Close` fails
with the uninitialized-sink error; on the state left behind by an actual
`Close` of a freshly constructed sink, a subsequent `Handle` instead
returns success (the day file is silently reopened). -/
theorem dailyFileHandler_handle_after_close_counterexample :
    (DailyFileHandler.handle
      ((NewFileHandler ⟨OutputFile, "./logs".data, "app".data, 30, LogFormatText, 0, false⟩
          ⟨⟨2024, 1, 1⟩, 0⟩ ⟨[], [], 0⟩).1.close
        (NewFileHandler ⟨OutputFile, "./logs".data, "app".data, 30, LogFormatText, 0, false⟩
          ⟨⟨2024, 1, 1⟩, 0⟩ ⟨[], [], 0⟩).2).2.1
      ((NewFileHandler ⟨OutputFile, "./logs".data, "app".data, 30, LogFormatText, 0, false⟩
          ⟨⟨2024, 1, 1⟩, 0⟩ ⟨[], [], 0⟩).1.close
        (NewFileHandler ⟨OutputFile, "./logs".data, "app".data, 30, LogFormatText, 0, false⟩
          ⟨⟨2024, 1, 1⟩, 0⟩ ⟨[], [], 0⟩).2).2.2.1
      ⟨0, ⟨⟨2024, 1, 1⟩, 3600⟩, "m".data, []⟩).1 = .ok () ∧
    (DailyFileHandler.handle
      ((NewFileHandler ⟨OutputFile, "./logs".data, "app".data, 30, LogFormatText, 0, false⟩
          ⟨⟨2024, 1, 1⟩, 0⟩ ⟨[], [], 0⟩).1.close
        (NewFileHandler ⟨OutputFile, "./logs".data, "app".data, 30, LogFormatText, 0, false⟩
          ⟨⟨2024, 1, 1⟩, 0⟩ ⟨[], [], 0⟩).2).2.1
      ((NewFileHandler ⟨OutputFile, "./logs".data, "app".data, 30, LogFormatText, 0, false⟩
          ⟨⟨2024, 1, 1⟩, 0⟩ ⟨[], [], 0⟩).1.close
        (NewFileHandler ⟨OutputFile, "./logs".data, "app".data, 30, LogFormatText, 0, false⟩
          ⟨⟨2024, 1, 1⟩, 0⟩ ⟨[], [], 0⟩).2).2.2.1
      ⟨0, ⟨⟨2024, 1, 1⟩, 3600⟩, "m".data, []⟩).1 ≠
      .error (.mk "file handler not initialized".data) := by
  constructor <;> decide

/-- C1 (code divergence): with attributes bound while 2024-01-01 is open,
handling a 2024-01-02 record through the decorated wrapper re-enters the
rotation (the old handle is closed, the new day file is created) but then
delegates to the encoder captured at decoration time, which is still bound
to the now-closed old file: the write fails and the new day's file stays
empty, instead of the record (with its bound attributes) landing in the
new day's file. -/
theorem fileHandlerWrapper_stale_encoder_after_rotation :
    (FileHandlerWrapper.handle
      ⟨(mkInner ⟨OutputFile, "./logs".data, "app".data, 30, LogFormatText, 0, false⟩ 0).withAttrsE
        [⟨"k".data, "v".data⟩]⟩
      ⟨⟨OutputFile, "./logs".data, "app".data, 30, LogFormatText, 0, false⟩,
       "2024-01-01".data, some 0,
       some (mkInner ⟨OutputFile, "./logs".data, "app".data, 30, LogFormatText, 0, false⟩ 0),
       true, false, false⟩
      ⟨[⟨"app-2024-01-01.log".data, false, []⟩],
       [⟨0, "app-2024-01-01.log".data, true⟩], 1⟩
      ⟨0, ⟨⟨2024, 1, 2⟩, 60⟩, "m".data, []⟩).1 =
      .error (.mk "file already closed".data) ∧
    (FileHandlerWrapper.handle
      ⟨(mkInner ⟨OutputFile, "./logs".data, "app".data, 30, LogFormatText, 0, false⟩ 0).withAttrsE
        [⟨"k".data, "v".data⟩]⟩
      ⟨⟨OutputFile, "./logs".data, "app".data, 30, LogFormatText, 0, false⟩,
       "2024-01-01".data, some 0,
       some (mkInner ⟨OutputFile, "./logs".data, "app".data, 30, LogFormatText, 0, false⟩ 0),
       true, false, false⟩
      ⟨[⟨"app-2024-01-01.log".data, false, []⟩],
       [⟨0, "app-2024-01-01.log".data, true⟩], 1⟩
      ⟨0, ⟨⟨2024, 1, 2⟩, 60⟩, "m".data, []⟩).2.2.files =
      [⟨"app-2024-01-01.log".data, false, []⟩,
       ⟨"app-2024-01-02.log".data, false, []⟩] ∧
    (DailyFileHandler.withAttrsD
      ⟨⟨OutputFile, "./logs".data, "app".data, 30, LogFormatText, 0, false⟩,
       "2024-01-01".data, some 0,
       some (mkInner ⟨OutputFile, "./logs".data, "app".data, 30, LogFormatText, 0, false⟩ 0),
       true, false, false⟩ [⟨"k".data, "v".data⟩] =
      some ⟨(mkInner ⟨OutputFile, "./logs".data, "app".data, 30, LogFormatText, 0, false⟩ 0).withAttrsE
        [⟨"k".data, "v".data⟩]⟩) := by
  refine ⟨?_, ?_, ?_⟩ <;> decide

theorem trimPre_append (p rest : Str) : trimPre (p ++ rest) p = rest := by
  unfold trimPre
  rw [if_pos ( List.isPrefixOf_iff_prefix.mpr (List.prefix_append p rest))]
  exact List.drop_left p rest

theorem trimSuf_append (ds s : Str) : trimSuf (ds ++ s) s = ds := by
  unfold trimSuf
  rw [if_pos (List.isSuffixOf_iff_suffix.mpr (List.suffix_append ds s))]
  have hl : (ds ++ s).length - s.length = ds.length := by
    simp [List.length_append]
  rw [hl]
  exact List.take_left ds s

theorem suffix_drop_to_right {s p rest : Str} (h : s.isSuffixOf (p ++ rest))
    (hlen : s.length ≤ rest.length) : s.isSuffixOf rest = true := by
  obtain ⟨t, ht⟩ := List.isSuffixOf_iff_suffix.mp h
  apply List.isSuffixOf_iff_suffix.mpr
  have hlt : p.length ≤ t.length := by
    have := congrArg List.length ht
    simp only [List.length_append] at this
    omega
  refine ⟨t.drop p.length, ?_⟩
  have h1 : rest = (t ++ s).drop p.length := by
    rw [ht, List.drop_left]
  rw [h1, List.drop_append_eq_append_drop, Nat.sub_eq_zero_of_le hlt,
    List.drop_zero]

/-- The sweep's per-entry decision coincides with the spec-side shape: a
regular file named exactly `{prefix}-{date}.log` whose date parses and
lies strictly before the retention cutoff. -/
theorem sweepDeletes_iff (cfg : LogConfig) (now : GoTime) (f : FSFile) :
    sweepDeletes cfg now f = true ↔
      (f.isDir = false ∧
       ∃ ds d, f.name = cfg.fnPre ++ "-".data ++ ds ++ ".log".data ∧
         parseDate ds = some d ∧
         GoTime.before ⟨d, 0⟩ (cutoffTime now cfg.retainDays) = true) := by
  constructor
  · intro hdel
    unfold sweepDeletes at hdel
    split at hdel
    · exact absurd hdel (by simp)
    · rename_i hdir
      split at hdel
      · exact absurd hdel (by simp)
      · rename_i haff
        have hdir2 : f.isDir = false := by
          revert hdir; cases f.isDir <;> simp
        rw [not_not] at haff
        obtain ⟨hp, hs⟩ := haff
        obtain ⟨rest, hrest⟩ := List.isPrefixOf_iff_prefix.mp hp
        split at hdel
        · exact absurd hdel (by simp)
        · rename_i d hparse
          refine ⟨hdir2, ?_⟩
          rw [← hrest] at hparse
          rw [trimPre_append] at hparse
          by_cases hsr : (".log".data).isSuffixOf rest = true
          · obtain ⟨ds, hds⟩ := List.isSuffixOf_iff_suffix.mp hsr
            rw [← hds, trimSuf_append] at hparse
            refine ⟨ds, d, ?_, hparse, hdel⟩
            rw [← hrest, ← hds]
            simp [List.append_assoc]
          · have h10 : (trimSuf rest ".log".data).length = 10 :=
              parseDate_length hparse
            unfold trimSuf at h10 hparse
            rw [if_neg hsr] at h10 hparse
            have : (".log".data).isSuffixOf rest = true := by
              apply suffix_drop_to_right (p := cfg.fnPre ++ "-".data)
              · rw [hrest]; exact hs
              · rw [h10]; decide
            exact absurd this hsr
  · rintro ⟨hdir, ds, d, hname, hparse, hbef⟩
    have hshape : f.name = (cfg.fnPre ++ "-".data) ++ (ds ++ ".log".data) := by
      rw [hname, List.append_assoc]
    have hp : hasPre f.name (cfg.fnPre ++ "-".data) = true := by
      unfold hasPre
      rw [hshape]
      exact List.isPrefixOf_iff_prefix.mpr (List.prefix_append _ _)
    have hs : hasSuf f.name ".log".data = true := by
      unfold hasSuf
      rw [hshape, ← List.append_assoc]
      exact List.isSuffixOf_iff_suffix.mpr (List.suffix_append _ _)
    have htrim : trimSuf (trimPre f.name (cfg.fnPre ++ "-".data)) ".log".data = ds := by
      rw [hshape, trimPre_append, trimSuf_append]
    unfold sweepDeletes
    rw [hdir, htrim, hparse]
    simp [hp, hs, hbef]

/-- C6: for a retention window `R ≥ 1`, one retention-sweep pass removes
exactly the regular files whose names have the exact shape
`{prefix}-{date}.log` with `{date}` parsing as a calendar date strictly
before `now − R days`; every other entry — including matching files within
the window and entries with malformed names — is left untouched (the sweep
never fails), and the handle table is untouched. -/
theorem cleanOldLogs_retention (h : DailyFileHandler) (fs : FS) (now : GoTime)
    (hR : 1 ≤ h.cfg.retainDays) :
    (h.cleanOldLogs fs now).files =
      fs.files.filter (fun f => ¬ sweepDeletes h.cfg now f) ∧
    (h.cleanOldLogs fs now).handles = fs.handles ∧
    (∀ f : FSFile, sweepDeletes h.cfg now f = true ↔
      (f.isDir = false ∧
       ∃ ds d, f.name = h.cfg.fnPre ++ "-".data ++ ds ++ ".log".data ∧
         parseDate ds = some d ∧
         GoTime.before ⟨d, 0⟩ (cutoffTime now h.cfg.retainDays) = true)) := by
  refine ⟨?_, ?_, fun f => sweepDeletes_iff h.cfg now f⟩ <;>
    · unfold DailyFileHandler.cleanOldLogs
      rw [if_neg (by omega)]

/-- C6 witness: with prefix `app`, window 30 days and `now` at midnight of
2024-02-15 (cutoff 2024-01-16T00:00), one sweep deletes `app-2024-01-01.log`
and keeps the exact-boundary file `app-2024-01-16.log` (strictly-older
semantics), the in-window file `app-2024-02-01.log`, a malformed name, a
wrong-prefix name and a directory. -/
theorem cleanOldLogs_retention_witness :
    (DailyFileHandler.cleanOldLogs
      ⟨⟨OutputFile, "./logs".data, "app".data, 30, LogFormatText, 0, false⟩,
       "2024-02-15".data, some 0,
       some (mkInner ⟨OutputFile, "./logs".data, "app".data, 30, LogFormatText, 0, false⟩ 0),
       true, false, false⟩
      ⟨[⟨"app-2024-01-01.log".data, false, []⟩,
        ⟨"app-2024-01-16.log".data, false, []⟩,
        ⟨"app-2024-02-01.log".data, false, []⟩,
        ⟨"app-notadate.log".data, false, []⟩,
        ⟨"other-2020-01-01.log".data, false, []⟩,
        ⟨"app-2020-01-01.log".data, true, []⟩],
       [⟨0, "app-2024-02-15.log".data, true⟩], 1⟩
      ⟨⟨2024, 2, 15⟩, 0⟩).files =
      [⟨"app-2024-01-16.log".data, false, []⟩,
       ⟨"app-2024-02-01.log".data, false, []⟩,
       ⟨"app-notadate.log".data, false, []⟩,
       ⟨"other-2020-01-01.log".data, false, []⟩,
       ⟨"app-2020-01-01.log".data, true, []⟩] := by
  have h := cleanOldLogs_retention
    ⟨⟨OutputFile, "./logs".data, "app".data, 30, LogFormatText, 0, false⟩,
     "2024-02-15".data, some 0,
     some (mkInner ⟨OutputFile, "./logs".data, "app".data, 30, LogFormatText, 0, false⟩ 0),
     true, false, false⟩
    ⟨[⟨"app-2024-01-01.log".data, false, []⟩,
      ⟨"app-2024-01-16.log".data, false, []⟩,
      ⟨"app-2024-02-01.log".data, false, []⟩,
      ⟨"app-notadate.log".data, false, []⟩,
      ⟨"other-2020-01-01.log".data, false, []⟩,
      ⟨"app-2020-01-01.log".data, true, []⟩],
     [⟨0, "app-2024-02-15.log".data, true⟩], 1⟩
    ⟨⟨2024, 2, 15⟩, 0⟩ (by norm_num)
  exact h.1.trans (by decide)

end Diting
